import Mathlib

/-!
Verification of the real-time fan-out core of a multi-protocol mock server:
a WebSocket broadcast/room registry (internal/websocket/handlers.go) and a
bidirectional gRPC streaming coordinator (internal/grpc).  The transport and
JSON (de)serialization libraries are external collaborators: the embedding
consumes their outcomes (a decoded message, a per-recipient write result) as
oracles, which matches the program's use of them as opaque capabilities.
-/

namespace MockServer

/-- Connections are identified abstractly; the program uses the pointer
`*websocket.Conn` only as a map key. -/
abbrev Conn := Nat

/-- The dynamic JSON payloads (`interface{}` in Go) restricted to the tagged
union of the shapes the handlers actually build or pass through. -/
inductive JsonVal where
  | null : JsonVal
  | str : String → JsonVal
  | num : Int → JsonVal
  | boolean : Bool → JsonVal
  | arr : List JsonVal → JsonVal
  | obj : List (String × JsonVal) → JsonVal

/-- `Message` from internal/websocket/handlers.go: the envelope exchanged on
every WebSocket channel. `room` is `""` when absent (Go `omitempty`). -/
structure Message where
  type : String
  data : JsonVal
  timestamp : Int
  room : String := ""

/-- The registry state of `WebSocketHandlers`: the global client set and the
room map.  Go maps are modelled as duplicate-free lists (clients) and an
association list keyed by room name (rooms). -/
structure WSState where
  clients : List Conn
  rooms : List (String × List Conn)
  deriving DecidableEq, Repr

def emptyWS : WSState := { clients := [], rooms := [] }

/-- `h.clients[conn] = true` / `h.rooms[room][conn] = true`: idempotent
insertion into a Go set-map. -/
def insertConn (cs : List Conn) (c : Conn) : List Conn :=
  if c ∈ cs then cs else cs ++ [c]

/-- `delete(m, conn)` on a Go set-map. -/
def eraseConn (cs : List Conn) (c : Conn) : List Conn :=
  cs.filter (fun x => x ≠ c)

/-- `h.rooms[room]` — lookup in the room map (`none` models a `nil` map
value for an absent key). -/
def lookupRoom : List (String × List Conn) → String → Option (List Conn)
  | [], _ => none
  | (k, v) :: rest, r => if k = r then some v else lookupRoom rest r

/-- `h.rooms[room] = v` — update or create the entry for `room`. -/
def setRoom : List (String × List Conn) → String → List Conn → List (String × List Conn)
  | [], r, v => [(r, v)]
  | (k, w) :: rest, r, v => if k = r then (r, v) :: rest else (k, w) :: setRoom rest r v

/-- `delete(h.rooms, room)` — remove the entry for `room`. -/
def delRoom : List (String × List Conn) → String → List (String × List Conn)
  | [], _ => []
  | (k, w) :: rest, r => if k = r then delRoom rest r else (k, w) :: delRoom rest r

/-- The member snapshot of a room: absent rooms read as the empty set. -/
def roomMembers (s : WSState) (r : String) : List Conn :=
  (lookupRoom s.rooms r).getD []

/-- Observable side effects of the handlers on the transport handles:
an attempted `safeWriteJSON` (with its success bit — `ok = false` means the
write returned an error) and a `conn.Close()`. -/
inductive Effect where
  | send (dst : Conn) (msg : Message) (ok : Bool) : Effect
  | close (c : Conn) : Effect

/-- `addClient`: insert into the global client set. -/
def addClient (s : WSState) (c : Conn) : WSState :=
  { s with clients := insertConn s.clients c }

/-- `removeClient`: if the connection is registered, delete it from the
global set and close the transport; otherwise do nothing. -/
def removeClient (s : WSState) (c : Conn) : WSState × List Effect :=
  if c ∈ s.clients then
    ({ s with clients := eraseConn s.clients c }, [Effect.close c])
  else (s, [])

/-- `addToRoom`: create the room's member map if absent, then insert. -/
def addToRoom (s : WSState) (c : Conn) (room : String) : WSState :=
  let members := (lookupRoom s.rooms room).getD []
  { s with rooms := setRoom s.rooms room (insertConn members c) }

/-- `removeFromRoom`: if the room exists and holds the connection, delete the
connection; delete the room's entry when it becomes empty.  `conn.Close()` is
called unconditionally at the end (source line 343). -/
def removeFromRoom (s : WSState) (c : Conn) (room : String) : WSState × List Effect :=
  let s' :=
    match lookupRoom s.rooms room with
    | none => s
    | some members =>
      if c ∈ members then
        let members' := eraseConn members c
        if members' = [] then { s with rooms := delRoom s.rooms room }
        else { s with rooms := setRoom s.rooms room members' }
      else s
  (s', [Effect.close c])

/-! ## Envelope decoding (`safeReadJSON`) -/

/-- One inbound frame event as observed through the transport library:
`ws.ReadMessage()` failed (`closed`), delivered a non-text frame (`binary`),
or delivered a text frame whose bytes `json.Unmarshal` either rejects with an
error string or decodes into a `Message` (the JSON library is an external
collaborator, so its verdict is part of the event). -/
inductive ReadEvent where
  | closed (err : String) : ReadEvent
  | binary : ReadEvent
  | text (raw : String) (parsed : Except String Message) : ReadEvent

/-- The envelope `safeReadJSON` builds for a non-text frame. -/
def binaryMsg (now : Int) : Message :=
  { type := "error", data := .str "Binary messages not supported", timestamp := now }

/-- The envelope `safeReadJSON` builds when `json.Unmarshal` fails: type
`json_error`, payload carrying the diagnostic and the original raw text. -/
def jsonErrorMsg (raw e : String) (now : Int) : Message :=
  { type := "json_error",
    data := .obj [("error", .str "Invalid JSON format"),
                  ("details", .str e),
                  ("raw_data", .str raw)],
    timestamp := now }

/-- `safeReadJSON`: read one frame; a read error is the only failure; binary
frames and undecodable text both produce ordinary envelopes; a decoded
envelope with timestamp `0` gets the receipt time `now`. -/
def safeReadJSON (now : Int) : ReadEvent → Except String Message
  | .closed e => .error e
  | .binary => .ok (binaryMsg now)
  | .text raw (.error e) => .ok (jsonErrorMsg raw e now)
  | .text _ (.ok m) => .ok (if m.timestamp = 0 then { m with timestamp := now } else m)

/-! ## Broadcast engine -/

/-- The fan-out loop body shared by `broadcastToAll` and `broadcastToRoom`:
one `safeWriteJSON` attempt per member of the snapshot, in order.  `wfail c`
is the write-result oracle: `true` means the write to `c` returns an error. -/
def fanout (msg : Message) (wfail : Conn → Bool) : List Conn → List Effect
  | [] => []
  | c :: rest => Effect.send c msg (!(wfail c)) :: fanout msg wfail rest

/-- The `successCount` accumulation of the fan-out loops: a failed write adds
nothing, a successful one adds one. -/
def deliverCount (wfail : Conn → Bool) : List Conn → Nat
  | [] => 0
  | c :: rest => (if wfail c then 0 else 1) + deliverCount wfail rest

/-- `broadcastToAll`: fan out `msg` to every registered client under a read
lock; the registry is not mutated (result state, effects, success count). -/
def broadcastToAll (s : WSState) (msg : Message) (wfail : Conn → Bool) :
    WSState × List Effect × Nat :=
  if s.clients.length = 0 then (s, [], 0)
  else (s, fanout msg wfail s.clients, deliverCount wfail s.clients)

/-- `broadcastToRoom`: an absent or empty room is a silent no-op, otherwise
fan out to the room's member snapshot; the registry is not mutated. -/
def broadcastToRoom (s : WSState) (room : String) (msg : Message) (wfail : Conn → Bool) :
    WSState × List Effect × Nat :=
  match lookupRoom s.rooms room with
  | none => (s, [], 0)
  | some members =>
    if members.length = 0 then (s, [], 0)
    else (s, fanout msg wfail members, deliverCount wfail members)

/-! ## Session loops

Each handler's `for` loop is a function of the connection's inbound event
list.  The loop exits on a `safeReadJSON` error or on a failed write of a
direct reply; fan-out write failures never stop the loop. -/

/-- Welcome envelope of the `/ws/echo` handler. -/
def welcomeEchoMsg (now : Int) : Message :=
  { type := "welcome",
    data := .str "Connected to Echo WebSocket. Send any JSON message to echo it back.",
    timestamp := now }

/-- Welcome envelope of the `/ws/broadcast` handler. -/
def welcomeBroadcastMsg (now : Int) : Message :=
  { type := "welcome",
    data := .str "Connected to Broadcast WebSocket. Your messages will be sent to all connected clients.",
    timestamp := now }

/-- Welcome envelope of the `/ws/chat/:room` handler. -/
def welcomeChatMsg (room : String) (now : Int) : Message :=
  { type := "welcome",
    data := .obj [("message", .str ("Connected to room " ++ room ++ ". Send JSON messages to chat."))],
    timestamp := now, room := room }

/-- Join notice broadcast by the chat handler. -/
def joinMsg (room : String) (now : Int) : Message :=
  { type := "join",
    data := .obj [("message", .str ("User joined room " ++ room))],
    timestamp := now, room := room }

/-- Leave notice broadcast by the chat handler. -/
def leaveMsg (room : String) (now : Int) : Message :=
  { type := "leave",
    data := .obj [("message", .str ("User left room " ++ room))],
    timestamp := now, room := room }

/-- The read loop of `Echo`: a `json_error` envelope is written back as is;
every other envelope is echoed re-tagged `echo`; any reply-write failure
breaks the loop. -/
def echoLoop (me : Conn) (now : Int) (wfail : Conn → Bool) : List ReadEvent → List Effect
  | [] => []
  | ev :: rest =>
    match safeReadJSON now ev with
    | .error _ => []
    | .ok msg =>
      if msg.type = "json_error" then
        if wfail me then [Effect.send me msg false]
        else Effect.send me msg true :: echoLoop me now wfail rest
      else
        let response : Message := { type := "echo", data := msg.data, timestamp := now }
        if wfail me then [Effect.send me response false]
        else Effect.send me response true :: echoLoop me now wfail rest

/-- The whole `Echo` handler after upgrade: welcome, read loop, deferred
`ws.Close()`.  A failed welcome write returns before entering the loop. -/
def echoSession (me : Conn) (now : Int) (wfail : Conn → Bool)
    (events : List ReadEvent) : List Effect :=
  if wfail me then [Effect.send me (welcomeEchoMsg now) false, Effect.close me]
  else Effect.send me (welcomeEchoMsg now) true ::
    (echoLoop me now wfail events ++ [Effect.close me])

/-- The read loop of `Broadcast`: a `json_error` envelope goes back to the
sender only; every other envelope is re-tagged `broadcast` and fanned out to
the full client set. -/
def broadcastLoop (me : Conn) (now : Int) (wfail : Conn → Bool) (s : WSState) :
    List ReadEvent → List Effect
  | [] => []
  | ev :: rest =>
    match safeReadJSON now ev with
    | .error _ => []
    | .ok msg =>
      if msg.type = "json_error" then
        if wfail me then [Effect.send me msg false]
        else Effect.send me msg true :: broadcastLoop me now wfail s rest
      else
        let b : Message := { type := "broadcast", data := msg.data, timestamp := now }
        (broadcastToAll s b wfail).2.1 ++ broadcastLoop me now wfail s rest

/-- The whole `Broadcast` handler: register, welcome (failure only logged),
read loop, deferred `removeClient`. -/
def broadcastSession (me : Conn) (now : Int) (wfail : Conn → Bool) (s : WSState)
    (events : List ReadEvent) : WSState × List Effect :=
  let s1 := addClient s me
  let removal := removeClient s1 me
  (removal.1,
    Effect.send me (welcomeBroadcastMsg now) (!(wfail me)) ::
      (broadcastLoop me now wfail s1 events ++ removal.2))

/-- The read loop of `Chat`: a `json_error` envelope gets the room stamped on
it and goes back to the sender only; every other envelope is re-tagged `chat`
and fanned out to the room snapshot. -/
def chatLoop (me : Conn) (room : String) (now : Int) (wfail : Conn → Bool) (s : WSState) :
    List ReadEvent → List Effect
  | [] => []
  | ev :: rest =>
    match safeReadJSON now ev with
    | .error _ => []
    | .ok msg =>
      if msg.type = "json_error" then
        let msg' := { msg with room := room }
        if wfail me then [Effect.send me msg' false]
        else Effect.send me msg' true :: chatLoop me room now wfail s rest
      else
        let cm : Message := { type := "chat", data := msg.data, timestamp := now, room := room }
        (broadcastToRoom s room cm wfail).2.1 ++ chatLoop me room now wfail s rest

/-- The whole `Chat` handler: an empty room parameter is rejected before the
upgrade; otherwise join the room, welcome the new connection (failure only
logged), broadcast the join notice to the room (the joiner included), run the
read loop, broadcast the leave notice to the room — the deferred
`removeFromRoom` runs only after the handler body, so the departing
connection is still a member during the leave broadcast — then remove and
close the connection. -/
def chatSession (me : Conn) (room : String) (now : Int) (wfail : Conn → Bool)
    (s : WSState) (events : List ReadEvent) : WSState × List Effect :=
  if room = "" then (s, []) else
  let s1 := addToRoom s me room
  let removal := removeFromRoom s1 me room
  (removal.1,
    Effect.send me (welcomeChatMsg room now) (!(wfail me)) ::
      ((broadcastToRoom s1 room (joinMsg room now) wfail).2.1 ++
        (chatLoop me room now wfail s1 events ++
          ((broadcastToRoom s1 room (leaveMsg room now) wfail).2.1 ++ removal.2))))

/-! ## gRPC streaming coordinator (internal/grpc) -/

/-- `StreamRequest` from proto/mock.proto: an identifier and a data payload. -/
structure StreamRequest where
  id : String
  data : String
  deriving DecidableEq, Repr

/-- `StreamResponse` from proto/mock.proto: identifier, data, timestamp and
the `int32` sequence number. -/
structure StreamResponse where
  id : String
  data : String
  timestamp : Int
  sequence : Int
  deriving DecidableEq, Repr

/-- Two's-complement wrap of an unbounded integer into `int32`, applied
where the Go code increments or casts to `int32`. -/
def wrap32 (n : Int) : Int := (n + 2 ^ 31) % 2 ^ 32 - 2 ^ 31

/-- One `stream.Recv()` outcome on the bidirectional call: an item, a
graceful end of input (`io.EOF`), or a receive error. -/
inductive RecvEvent where
  | item (id : String) (data : String) : RecvEvent
  | eof : RecvEvent
  | recvErr (e : String) : RecvEvent
  deriving DecidableEq, Repr

/-- The receive goroutine of `BidiStream`: `sent` counts the sends already
issued (indexing the send-result oracle `sfail`), `seqNo` is the running
`int32` sequence counter.  For each item the counter is incremented, a
response tagged with it is built, and it is sent; the first receive or send
error stops the flow and is the only value ever put on the error channel.
Returns the successfully sent responses and that first error, if any. -/
def bidiLoop (now : Int) (sfail : Nat → Option String) (sent : Nat) (seqNo : Int) :
    List RecvEvent → List StreamResponse × Option String
  | [] => ([], none)
  | .eof :: _ => ([], none)
  | .recvErr e :: _ => ([], some e)
  | .item rid rdata :: rest =>
    let seqNo' := wrap32 (seqNo + 1)
    let resp : StreamResponse :=
      { id := rid, data := "Echo: " ++ rdata ++ " (processed)",
        timestamp := now, sequence := seqNo' }
    match sfail sent with
    | some e => ([], some e)
    | none =>
      let next := bidiLoop now sfail (sent + 1) seqNo' rest
      (resp :: next.1, next.2)

/-- `BidiStream`: the call's responses and outcome are exactly the receive
flow's — the coordinator waits on the error channel, which yields the flow's
first error, or `none` when the channel is closed after a graceful return. -/
def bidiStream (now : Int) (sfail : Nat → Option String) (events : List RecvEvent) :
    List StreamResponse × Option String :=
  bidiLoop now sfail 0 0 events

/-- Modelled from the spec (§4.5 Completion) for comparison with the code:
"the coordinator surfaces the first error encountered, if any, as the call's
outcome" — the first receive error or failed-send error met by the receive
flow, `none` on graceful end of input. -/
def firstRecvFlowError (sfail : Nat → Option String) : Nat → List RecvEvent → Option String
  | _, [] => none
  | _, .eof :: _ => none
  | _, .recvErr e :: _ => some e
  | sent, .item _ _ :: rest =>
    match sfail sent with
    | some e => some e
    | none => firstRecvFlowError sfail (sent + 1) rest

/-- The loop of `ServerStream`, counting down the remaining iterations of
`for i := 0; i < 5; i++`: each pass first consults the call context
(`ctxErr i` is the cancellation oracle), then sends response `i + 1` with
sequence `int32(i + 1)` (`sfail i` is the send-result oracle). -/
def serverStreamLoop (now : Int) (req : StreamRequest) (ctxErr sfail : Nat → Option String) :
    Nat → Nat → List StreamResponse × Option String
  | _, 0 => ([], none)
  | i, fuel + 1 =>
    match ctxErr i with
    | some e => ([], some e)
    | none =>
      let resp : StreamResponse :=
        { id := req.id, data := req.data ++ " - response " ++ toString (i + 1),
          timestamp := now, sequence := wrap32 ((i : Int) + 1) }
      match sfail i with
      | some e => ([], some e)
      | none =>
        let next := serverStreamLoop now req ctxErr sfail (i + 1) fuel
        (resp :: next.1, next.2)

/-- `ServerStream`: five responses numbered from 1, stopping early on a
context error or send error. -/
def serverStream (now : Int) (req : StreamRequest) (ctxErr sfail : Nat → Option String) :
    List StreamResponse × Option String :=
  serverStreamLoop now req ctxErr sfail 0 5

/-! ## Registry operation sequences (for the reachable-state invariant) -/

/-- A join/leave operation on the room registry. -/
inductive RegOp where
  | join (c : Conn) (r : String) : RegOp
  | leave (c : Conn) (r : String) : RegOp

def applyOp (s : WSState) : RegOp → WSState
  | .join c r => addToRoom s c r
  | .leave c r => (removeFromRoom s c r).1

def applyOps : WSState → List RegOp → WSState
  | s, [] => s
  | s, op :: rest => applyOps (applyOp s op) rest

/-- Connections targeted by the send effects of a trace. -/
def sendTargets : List Effect → List Conn
  | [] => []
  | Effect.send d _ _ :: rest => d :: sendTargets rest
  | Effect.close _ :: rest => sendTargets rest

/-- Number of `leave`-typed envelopes attempted towards connection `c` in a
trace. -/
def countLeaveSends (c : Conn) : List Effect → Nat
  | [] => 0
  | Effect.send d m _ :: rest =>
    (if d = c ∧ m.type = "leave" then 1 else 0) + countLeaveSends c rest
  | Effect.close _ :: rest => countLeaveSends c rest

/-! ## Helper lemmas -/

theorem fanout_eq_map (msg : Message) (wfail : Conn → Bool) (cs : List Conn) :
    fanout msg wfail cs = cs.map (fun c => Effect.send c msg (!(wfail c))) := by
  induction cs with
  | nil => rfl
  | cons c rest ih => simp [fanout, ih]

theorem deliverCount_eq_filter_length (wfail : Conn → Bool) (cs : List Conn) :
    deliverCount wfail cs = (cs.filter (fun c => !(wfail c))).length := by
  induction cs with
  | nil => rfl
  | cons c rest ih =>
    simp only [deliverCount, List.filter, ih]
    cases h : wfail c
    · simp [h]
      omega
    · simp [h]

theorem broadcastToAll_eq (s : WSState) (msg : Message) (wfail : Conn → Bool) :
    broadcastToAll s msg wfail =
      (s, fanout msg wfail s.clients, deliverCount wfail s.clients) := by
  unfold broadcastToAll
  split
  · rename_i h
    have hnil : s.clients = [] := List.length_eq_zero.mp h
    simp [hnil, fanout, deliverCount]
  · rfl

theorem broadcastToRoom_eq (s : WSState) (room : String) (msg : Message)
    (wfail : Conn → Bool) :
    broadcastToRoom s room msg wfail =
      (s, fanout msg wfail (roomMembers s room), deliverCount wfail (roomMembers s room)) := by
  unfold broadcastToRoom roomMembers
  cases h : lookupRoom s.rooms room with
  | none => simp [h, fanout, deliverCount]
  | some members =>
    simp only [h, Option.getD_some]
    split
    · rename_i hlen
      have hnil : members = [] := List.length_eq_zero.mp hlen
      simp [hnil, fanout, deliverCount]
    · rfl

theorem lookupRoom_setRoom_self (rooms : List (String × List Conn)) (r : String)
    (v : List Conn) : lookupRoom (setRoom rooms r v) r = some v := by
  induction rooms with
  | nil => simp [setRoom, lookupRoom]
  | cons p rest ih =>
    obtain ⟨k, w⟩ := p
    by_cases h : k = r
    · simp [setRoom, h, lookupRoom]
    · simp [setRoom, h, lookupRoom, ih]

theorem lookupRoom_delRoom_self (rooms : List (String × List Conn)) (r : String) :
    lookupRoom (delRoom rooms r) r = none := by
  induction rooms with
  | nil => rfl
  | cons p rest ih =>
    obtain ⟨k, w⟩ := p
    by_cases h : k = r
    · simp [delRoom, h, ih]
    · simp [delRoom, h, lookupRoom, ih]

theorem lookupRoom_mem (rooms : List (String × List Conn)) (r : String) (v : List Conn)
    (h : lookupRoom rooms r = some v) : (r, v) ∈ rooms := by
  induction rooms with
  | nil => simp [lookupRoom] at h
  | cons p rest ih =>
    obtain ⟨k, w⟩ := p
    by_cases hk : k = r
    · simp [lookupRoom, hk] at h
      subst hk h
      exact List.mem_cons_self _ _
    · simp [lookupRoom, hk] at h
      exact List.mem_cons_of_mem _ (ih h)

theorem mem_setRoom (rooms : List (String × List Conn)) (r : String) (v : List Conn)
    (p : String × List Conn) (h : p ∈ setRoom rooms r v) : p = (r, v) ∨ p ∈ rooms := by
  induction rooms with
  | nil => simpa [setRoom] using h
  | cons q rest ih =>
    obtain ⟨k, w⟩ := q
    by_cases hk : k = r
    · simp only [setRoom, if_pos hk] at h
      rcases List.mem_cons.mp h with h1 | h1
      · exact Or.inl h1
      · exact Or.inr (List.mem_cons_of_mem _ h1)
    · simp only [setRoom, if_neg hk] at h
      rcases List.mem_cons.mp h with h1 | h1
      · exact Or.inr (h1 ▸ List.mem_cons_self _ _)
      · rcases ih h1 with h2 | h2
        · exact Or.inl h2
        · exact Or.inr (List.mem_cons_of_mem _ h2)

theorem mem_delRoom (rooms : List (String × List Conn)) (r : String)
    (p : String × List Conn) (h : p ∈ delRoom rooms r) : p ∈ rooms := by
  induction rooms with
  | nil => simp [delRoom] at h
  | cons q rest ih =>
    obtain ⟨k, w⟩ := q
    by_cases hk : k = r
    · simp only [delRoom, if_pos hk] at h
      exact List.mem_cons_of_mem _ (ih h)
    · simp only [delRoom, if_neg hk] at h
      rcases List.mem_cons.mp h with h1 | h1
      · exact h1 ▸ List.mem_cons_self _ _
      · exact List.mem_cons_of_mem _ (ih h1)

theorem insertConn_ne_nil (cs : List Conn) (c : Conn) : insertConn cs c ≠ [] := by
  unfold insertConn
  split
  · rename_i h
    intro hnil
    rw [hnil] at h
    simp at h
  · simp

theorem mem_insertConn (cs : List Conn) (c x : Conn) :
    x ∈ insertConn cs c ↔ x ∈ cs ∨ x = c := by
  unfold insertConn
  split
  · rename_i h
    constructor
    · exact Or.inl
    · rintro (hx | rfl)
      · exact hx
      · exact h
  · simp

theorem insertConn_nodup (cs : List Conn) (c : Conn) (h : cs.Nodup) :
    (insertConn cs c).Nodup := by
  unfold insertConn
  split
  · exact h
  · rename_i hc
    simpa [List.nodup_append] using ⟨h, hc⟩

theorem not_mem_eraseConn (cs : List Conn) (c : Conn) : c ∉ eraseConn cs c := by
  unfold eraseConn
  intro h
  have := List.of_mem_filter h
  simp at this

theorem roomMembers_addToRoom_self (s : WSState) (c : Conn) (room : String) :
    roomMembers (addToRoom s c room) room = insertConn (roomMembers s room) c := by
  unfold roomMembers addToRoom
  simp [lookupRoom_setRoom_self]

theorem sendTargets_append (l1 l2 : List Effect) :
    sendTargets (l1 ++ l2) = sendTargets l1 ++ sendTargets l2 := by
  induction l1 with
  | nil => rfl
  | cons e rest ih => cases e <;> simp [sendTargets, ih]

theorem sendTargets_fanout (msg : Message) (wfail : Conn → Bool) (cs : List Conn) :
    sendTargets (fanout msg wfail cs) = cs := by
  induction cs with
  | nil => rfl
  | cons c rest ih => simp [fanout, sendTargets, ih]

theorem countLeaveSends_append (c : Conn) (l1 l2 : List Effect) :
    countLeaveSends c (l1 ++ l2) = countLeaveSends c l1 + countLeaveSends c l2 := by
  induction l1 with
  | nil => simp [countLeaveSends]
  | cons e rest ih =>
    cases e with
    | send d m ok =>
      simp [countLeaveSends, ih]
      omega
    | close c' => simp [countLeaveSends, ih]

theorem countLeaveSends_fanout (c : Conn) (msg : Message) (wfail : Conn → Bool)
    (cs : List Conn) :
    countLeaveSends c (fanout msg wfail cs) =
      if msg.type = "leave" then cs.count c else 0 := by
  induction cs with
  | nil => simp [fanout, countLeaveSends]
  | cons d rest ih =>
    simp only [fanout, countLeaveSends, ih, List.count_cons]
    by_cases ht : msg.type = "leave"
    · by_cases hd : d = c
      · simp [ht, hd]
        omega
      · have : ¬(d == c) := by simpa using hd
        simp [ht, hd, this]
    · simp [ht]

theorem countLeaveSends_of_type_ne (c : Conn) (d : Conn) (msg : Message) (ok : Bool)
    (h : msg.type ≠ "leave") :
    countLeaveSends c [Effect.send d msg ok] = 0 := by
  simp [countLeaveSends, h]

/-- State left by `removeFromRoom`: the target connection is gone from the
room's member snapshot. -/
theorem roomMembers_removeFromRoom_self (s : WSState) (c : Conn) (room : String) :
    c ∉ roomMembers ((removeFromRoom s c room).1) room := by
  unfold removeFromRoom roomMembers
  cases h : lookupRoom s.rooms room with
  | none => simp [h]
  | some members =>
    simp only [h]
    by_cases hc : c ∈ members
    · by_cases hnil : eraseConn members c = []
      · simp [hc, hnil, lookupRoom_delRoom_self]
      · simp [hc, hnil, lookupRoom_setRoom_self]
        exact not_mem_eraseConn members c
    · simp only [if_neg hc]
      intro habs
      rw [h] at habs
      exact hc (by simpa using habs)

/-- `removeFromRoom` on a connection that is not a member leaves the state
untouched (only the unconditional `conn.Close()` still happens). -/
theorem removeFromRoom_absent (s : WSState) (c : Conn) (room : String)
    (h : c ∉ roomMembers s room) :
    removeFromRoom s c room = (s, [Effect.close c]) := by
  unfold removeFromRoom
  cases hl : lookupRoom s.rooms room with
  | none => simp [hl]
  | some members =>
    have hc : c ∉ members := by
      intro hmem
      apply h
      unfold roomMembers
      rw [hl]
      simpa using hmem
    simp [hl, hc]

/-- The room-map invariant: every entry present in the map has a non-empty
member set (so "an entry exists for a label iff its member set is
non-empty"). -/
def roomsInv (s : WSState) : Prop :=
  ∀ p ∈ s.rooms, p.2 ≠ []

theorem roomsInv_empty : roomsInv emptyWS := by
  intro p hp
  simp [emptyWS] at hp

theorem roomsInv_addToRoom (s : WSState) (c : Conn) (room : String)
    (h : roomsInv s) : roomsInv (addToRoom s c room) := by
  intro p hp
  unfold addToRoom at hp
  simp only at hp
  rcases mem_setRoom _ _ _ _ hp with h1 | h1
  · subst h1
    exact insertConn_ne_nil _ _
  · exact h p h1

theorem roomsInv_removeFromRoom (s : WSState) (c : Conn) (room : String)
    (h : roomsInv s) : roomsInv ((removeFromRoom s c room).1) := by
  unfold removeFromRoom
  cases hl : lookupRoom s.rooms room with
  | none => simpa using h
  | some members =>
    simp only [hl]
    by_cases hc : c ∈ members
    · by_cases hnil : eraseConn members c = []
      · simp only [if_pos hc, if_pos hnil]
        intro p hp
        exact h p (mem_delRoom _ _ _ hp)
      · simp only [if_pos hc, if_neg hnil]
        intro p hp
        rcases mem_setRoom _ _ _ _ hp with h1 | h1
        · subst h1
          exact hnil
        · exact h p h1
    · simpa [hc] using h

theorem roomsInv_applyOps (ops : List RegOp) (s : WSState) (h : roomsInv s) :
    roomsInv (applyOps s ops) := by
  induction ops generalizing s with
  | nil => exact h
  | cons op rest ih =>
    apply ih
    cases op with
    | join c r => exact roomsInv_addToRoom s c r h
    | leave c r => exact roomsInv_removeFromRoom s c r h

theorem roomsInv_entry_iff (s : WSState) (h : roomsInv s) (r : String) :
    (lookupRoom s.rooms r).isSome ↔ roomMembers s r ≠ [] := by
  unfold roomMembers
  cases hl : lookupRoom s.rooms r with
  | none => simp
  | some members =>
    simp only [Option.isSome_some, Option.getD_some, true_iff]
    exact h (r, members) (lookupRoom_mem _ _ _ hl)

theorem wrap32_eq_self (n : Int) (h1 : -(2 ^ 31) ≤ n) (h2 : n < 2 ^ 31) :
    wrap32 n = n := by
  unfold wrap32
  omega

/-- Every send in a chat read loop targets the sender (a `json_error` reply)
or a member of the room snapshot (a `chat` fan-out). -/
theorem chatLoop_targets (me : Conn) (room : String) (now : Int) (wfail : Conn → Bool)
    (s : WSState) (events : List ReadEvent) :
    ∀ x ∈ sendTargets (chatLoop me room now wfail s events),
      x = me ∨ x ∈ roomMembers s room := by
  induction events with
  | nil =>
    intro x hx
    simp [chatLoop, sendTargets] at hx
  | cons ev rest ih =>
    intro x hx
    unfold chatLoop at hx
    cases hr : safeReadJSON now ev with
    | error e => simp [hr, sendTargets] at hx
    | ok msg =>
      simp only [hr] at hx
      by_cases ht : msg.type = "json_error"
      · simp only [if_pos ht] at hx
        by_cases hw : wfail me
        · simp [hw, sendTargets] at hx
          exact Or.inl hx
        · simp only [hw, if_neg, Bool.false_eq_true, ite_false, sendTargets] at hx
          rcases List.mem_cons.mp hx with h1 | h1
          · exact Or.inl h1
          · exact ih x h1
      · simp only [if_neg ht] at hx
        rw [broadcastToRoom_eq, sendTargets_append, sendTargets_fanout] at hx
        rcases List.mem_append.mp hx with h1 | h1
        · exact Or.inr h1
        · exact ih x h1

/-- A chat read loop never attempts a `leave`-typed send: `json_error`
replies keep their `json_error` type and everything else is re-tagged
`chat`. -/
theorem chatLoop_countLeaveSends (c me : Conn) (room : String) (now : Int)
    (wfail : Conn → Bool) (s : WSState) (events : List ReadEvent) :
    countLeaveSends c (chatLoop me room now wfail s events) = 0 := by
  induction events with
  | nil => rfl
  | cons ev rest ih =>
    unfold chatLoop
    cases hr : safeReadJSON now ev with
    | error e => rfl
    | ok msg =>
      simp only
      by_cases ht : msg.type = "json_error"
      · have hne : msg.type ≠ "leave" := by
          rw [ht]
          simp
        by_cases hw : wfail me
        · simp [ht, hw, countLeaveSends, hne]
        · simp [ht, hw, countLeaveSends, hne, ih]
      · rw [if_neg ht, broadcastToRoom_eq]
        simp only [countLeaveSends_append, ih, Nat.add_zero]
        rw [countLeaveSends_fanout]
        simp

/-- Send attempts of a fan-out cover the whole snapshot: a member's send is
in the trace regardless of other members' failures. -/
theorem fanout_mem (msg : Message) (wfail : Conn → Bool) (cs : List Conn) (c : Conn)
    (h : c ∈ cs) : Effect.send c msg (!(wfail c)) ∈ fanout msg wfail cs := by
  induction cs with
  | nil => simp at h
  | cons d rest ih =>
    rcases List.mem_cons.mp h with h1 | h1
    · subst h1
      exact List.mem_cons_self _ _
    · exact List.mem_cons_of_mem _ (ih h1)

/-- Expected sequence tags of `n` consecutive responses after counter value
`seqNo`: `seqNo + 1, seqNo + 2, …`. -/
def seqFrom (seqNo : Int) : Nat → List Int
  | 0 => []
  | n + 1 => (seqNo + 1) :: seqFrom (seqNo + 1) n

theorem seqFrom_eq_range_map (n : Nat) : ∀ seqNo : Int,
    seqFrom seqNo n = (List.range n).map (fun (j : Nat) => seqNo + (j : Int) + 1) := by
  induction n with
  | zero => intro seqNo; rfl
  | succ n ih =>
    intro seqNo
    rw [List.range_succ_eq_map]
    simp only [seqFrom, ih, List.map_cons, List.map_map]
    congr 1
    · push_cast
      ring
    · apply List.map_congr_left
      intro j _
      simp only [Function.comp_apply]
      push_cast
      ring

/-- The receive flow of `BidiStream` on a stream of `K` items followed by a
graceful end of input, when every send succeeds and the `int32` counter does
not overflow: exactly one response per item, tagged with consecutive
sequence numbers, identifiers preserved, and no error. -/
theorem bidiLoop_items (now : Int) (sfail : Nat → Option String)
    (items : List (String × String)) : ∀ (sent : Nat) (seqNo : Int),
    0 ≤ seqNo → seqNo + items.length < 2 ^ 31 →
    (∀ j, j < items.length → sfail (sent + j) = none) →
    (bidiLoop now sfail sent seqNo
        (items.map (fun p => RecvEvent.item p.1 p.2) ++ [RecvEvent.eof])).1.length
        = items.length ∧
    (bidiLoop now sfail sent seqNo
        (items.map (fun p => RecvEvent.item p.1 p.2) ++ [RecvEvent.eof])).1.map
          StreamResponse.sequence = seqFrom seqNo items.length ∧
    (bidiLoop now sfail sent seqNo
        (items.map (fun p => RecvEvent.item p.1 p.2) ++ [RecvEvent.eof])).1.map
          StreamResponse.id = items.map Prod.fst ∧
    (bidiLoop now sfail sent seqNo
        (items.map (fun p => RecvEvent.item p.1 p.2) ++ [RecvEvent.eof])).2 = none := by
  induction items with
  | nil =>
    intro sent seqNo _ _ _
    simp [bidiLoop, seqFrom]
  | cons p rest ih =>
    intro sent seqNo h0 hb hs
    have hb2 : seqNo + 1 + (rest.length : Int) < 2 ^ 31 := by
      simp only [List.length_cons] at hb
      push_cast at hb
      omega
    have hwrap : wrap32 (seqNo + 1) = seqNo + 1 := by
      apply wrap32_eq_self
      · omega
      · omega
    have hs0 : sfail sent = none := by
      have := hs 0 (by simp)
      simpa using this
    have hs' : ∀ j, j < rest.length → sfail (sent + 1 + j) = none := by
      intro j hj
      have := hs (j + 1) (by simp only [List.length_cons]; omega)
      simpa [Nat.add_comm, Nat.add_assoc, Nat.add_left_comm] using this
    have hrec := ih (sent + 1) (seqNo + 1) (by omega) hb2 hs'
    simp only [List.map_cons, List.cons_append, bidiLoop, hwrap, hs0]
    refine ⟨by simp [hrec.1], ?_, by simp [hrec.2.2.1], by simpa using hrec.2.2.2⟩
    simp only [List.map_cons, seqFrom, List.append_eq]
    rw [hrec.2.1]

/-- The error surfaced by the `BidiStream` receive loop, for any event
sequence, equals the first error of the receive flow per the spec. -/
theorem bidiLoop_outcome (now : Int) (sfail : Nat → Option String)
    (events : List RecvEvent) : ∀ (sent : Nat) (seqNo : Int),
    (bidiLoop now sfail sent seqNo events).2 = firstRecvFlowError sfail sent events := by
  induction events with
  | nil => intro sent seqNo; rfl
  | cons ev rest ih =>
    intro sent seqNo
    cases ev with
    | eof => rfl
    | recvErr e => rfl
    | item rid rdata =>
      simp only [bidiLoop, firstRecvFlowError]
      cases hs : sfail sent with
      | some e => rfl
      | none => simpa using ih (sent + 1) (wrap32 (seqNo + 1))

/-! ## Claim theorems -/

/-- C1: an inbound text frame whose bytes are not valid JSON never fails the
connection: `safeReadJSON` yields the distinguished `json_error` envelope
(carrying the raw text and the decoder's diagnostic), and each persistent
session loop (echo, broadcast, chat) sends exactly that one envelope back to
the originating sender — prepending a single send to the sender to the trace
of the remaining events — and continues reading with the connection open. -/
theorem parse_error_confined_to_sender (me : Conn) (room : String) (now : Int)
    (wfail : Conn → Bool) (s : WSState) (raw e : String) (rest : List ReadEvent)
    (hw : wfail me = false) :
    safeReadJSON now (ReadEvent.text raw (Except.error e)) =
      Except.ok (jsonErrorMsg raw e now) ∧
    echoLoop me now wfail (ReadEvent.text raw (Except.error e) :: rest) =
      Effect.send me (jsonErrorMsg raw e now) true :: echoLoop me now wfail rest ∧
    broadcastLoop me now wfail s (ReadEvent.text raw (Except.error e) :: rest) =
      Effect.send me (jsonErrorMsg raw e now) true :: broadcastLoop me now wfail s rest ∧
    chatLoop me room now wfail s (ReadEvent.text raw (Except.error e) :: rest) =
      Effect.send me { jsonErrorMsg raw e now with room := room } true ::
        chatLoop me room now wfail s rest := by
  refine ⟨rfl, ?_, ?_, ?_⟩ <;>
    simp [echoLoop, broadcastLoop, chatLoop, safeReadJSON, jsonErrorMsg, hw]

theorem parse_error_confined_to_sender_witness :
    echoLoop 0 5 (fun _ => false) [ReadEvent.text "not json" (Except.error "invalid character")] =
      [Effect.send 0 (jsonErrorMsg "not json" "invalid character" 5) true] := by
  have h := (parse_error_confined_to_sender 0 "r" 5 (fun _ => false) emptyWS
    "not json" "invalid character" [] rfl).2.1
  simpa [echoLoop] using h

/-- C3: a fan-out delivery (global or room-scoped) attempts a send to every
connection of the snapshot — a failing recipient does not abort the rest —
counts exactly the successful sends, and returns the registry state
unchanged. -/
theorem fanout_failure_isolated (s : WSState) (room : String) (m : Message)
    (wfail : Conn → Bool) :
    broadcastToAll s m wfail =
      (s, s.clients.map (fun c => Effect.send c m (!(wfail c))),
        (s.clients.filter (fun c => !(wfail c))).length) ∧
    broadcastToRoom s room m wfail =
      (s, (roomMembers s room).map (fun c => Effect.send c m (!(wfail c))),
        ((roomMembers s room).filter (fun c => !(wfail c))).length) := by
  constructor
  · rw [broadcastToAll_eq, fanout_eq_map, deliverCount_eq_filter_length]
  · rw [broadcastToRoom_eq, fanout_eq_map, deliverCount_eq_filter_length]

/-- C5: the bidirectional call's outcome is exactly the termination verdict
of its receive flow — `none` on graceful end of input, and otherwise the
first error the flow encountered, be it a failed receive or a failed send of
the corresponding response. -/
theorem bidi_outcome_is_first_recv_flow_error (now : Int) (sfail : Nat → Option String)
    (events : List RecvEvent) :
    (bidiStream now sfail events).2 = firstRecvFlowError sfail 0 events :=
  bidiLoop_outcome now sfail events 0 0

/-- C10: an envelope decoded from a text frame with timestamp `0` — whether
the field was absent or explicitly sent as `0` — is assigned the receipt
time, so as long as the receipt time is nonzero the session loop never
observes a zero timestamp on any decoded envelope. -/
theorem ingress_timestamp_never_zero (now : Int) (ev : ReadEvent) (msg : Message)
    (hnow : now ≠ 0) (h : safeReadJSON now ev = Except.ok msg) :
    msg.timestamp ≠ 0 ∧
    (∀ raw m0, ev = ReadEvent.text raw (Except.ok m0) → m0.timestamp = 0 →
      msg = { m0 with timestamp := now }) := by
  cases ev with
  | closed e => simp [safeReadJSON] at h
  | binary =>
    simp only [safeReadJSON, Except.ok.injEq] at h
    subst h
    exact ⟨hnow, by intro raw m0 habs; cases habs⟩
  | text raw parsed =>
    cases parsed with
    | error e =>
      simp only [safeReadJSON, Except.ok.injEq] at h
      subst h
      exact ⟨hnow, by intro raw' m0 habs; cases habs⟩
    | ok m0 =>
      simp only [safeReadJSON, Except.ok.injEq] at h
      subst h
      by_cases hz : m0.timestamp = 0
      · refine ⟨by simp [hz, hnow], ?_⟩
        intro raw' m0' habs hz'
        cases habs
        simp [hz]
      · refine ⟨by simp [hz], ?_⟩
        intro raw' m0' habs hz'
        cases habs
        exact absurd hz' hz

theorem ingress_timestamp_never_zero_witness :
    ({ type := "t", data := JsonVal.null, timestamp := 0 } : Message).timestamp = 0 ∧
    (safeReadJSON 5 (ReadEvent.text "x"
        (Except.ok { type := "t", data := JsonVal.null, timestamp := 0 }))).toOption.map
      Message.timestamp = some 5 := by
  constructor
  · rfl
  · have h := ingress_timestamp_never_zero 5
      (ReadEvent.text "x" (Except.ok { type := "t", data := JsonVal.null, timestamp := 0 }))
      { type := "t", data := JsonVal.null, timestamp := 5 } (by omega) rfl
    have h2 := h.2 "x" { type := "t", data := JsonVal.null, timestamp := 0 } rfl rfl
    rw [show safeReadJSON 5 (ReadEvent.text "x"
        (Except.ok { type := "t", data := JsonVal.null, timestamp := 0 })) =
      Except.ok { type := "t", data := JsonVal.null, timestamp := 5 } from congrArg Except.ok h2.symm]
    rfl

/-- C4: streamed responses are numbered from 1 with no gaps.  A client
sending `K` items on the bidirectional call (graceful end of input, all
sends succeeding, no `int32` overflow) receives exactly `K` responses with
sequence numbers `1..K` in order, one per item with identifiers preserved;
the server-streaming call emits its five responses numbered `1..5`. -/
theorem stream_sequences_consecutive (now : Int) (sfail ctxErr sfail2 : Nat → Option String)
    (items : List (String × String)) (req : StreamRequest)
    (hK : (items.length : Int) < 2 ^ 31)
    (hs : ∀ j, j < items.length → sfail j = none)
    (hctx : ∀ i, i < 5 → ctxErr i = none)
    (hs2 : ∀ i, i < 5 → sfail2 i = none) :
    (bidiStream now sfail (items.map (fun p => RecvEvent.item p.1 p.2) ++
        [RecvEvent.eof])).1.length = items.length ∧
    (bidiStream now sfail (items.map (fun p => RecvEvent.item p.1 p.2) ++
        [RecvEvent.eof])).1.map StreamResponse.sequence =
      (List.range items.length).map (fun (j : Nat) => (j : Int) + 1) ∧
    (bidiStream now sfail (items.map (fun p => RecvEvent.item p.1 p.2) ++
        [RecvEvent.eof])).1.map StreamResponse.id = items.map Prod.fst ∧
    (bidiStream now sfail (items.map (fun p => RecvEvent.item p.1 p.2) ++
        [RecvEvent.eof])).2 = none ∧
    (serverStream now req ctxErr sfail2).1.map StreamResponse.sequence = [1, 2, 3, 4, 5] ∧
    (serverStream now req ctxErr sfail2).2 = none := by
  have hb := bidiLoop_items now sfail items 0 0 (by omega) (by omega)
    (fun j hj => by simpa using hs j hj)
  have hseq : seqFrom 0 items.length =
      (List.range items.length).map (fun (j : Nat) => (j : Int) + 1) := by
    rw [seqFrom_eq_range_map]
    apply List.map_congr_left
    intro j _
    omega
  have e0 := hctx 0 (by omega)
  have e1 := hctx 1 (by omega)
  have e2 := hctx 2 (by omega)
  have e3 := hctx 3 (by omega)
  have e4 := hctx 4 (by omega)
  have f0 := hs2 0 (by omega)
  have f1 := hs2 1 (by omega)
  have f2 := hs2 2 (by omega)
  have f3 := hs2 3 (by omega)
  have f4 := hs2 4 (by omega)
  refine ⟨hb.1, ?_, hb.2.2.1, hb.2.2.2, ?_, ?_⟩
  · rw [show bidiStream now sfail (items.map (fun p => RecvEvent.item p.1 p.2) ++
        [RecvEvent.eof]) = bidiLoop now sfail 0 0 (items.map (fun p => RecvEvent.item p.1 p.2) ++
        [RecvEvent.eof]) from rfl]
    rw [hb.2.1, hseq]
  · norm_num [serverStream, serverStreamLoop, e0, e1, e2, e3, e4, f0, f1, f2, f3, f4, wrap32]
  · norm_num [serverStream, serverStreamLoop, e0, e1, e2, e3, e4, f0, f1, f2, f3, f4, wrap32]

theorem stream_sequences_consecutive_witness :
    (bidiStream 7 (fun _ => none)
        [RecvEvent.item "a" "x", RecvEvent.item "b" "y", RecvEvent.eof]).1.map
      StreamResponse.sequence = [1, 2] ∧
    (serverStream 7 { id := "i", data := "D" } (fun _ => none) (fun _ => none)).1.map
      StreamResponse.sequence = [1, 2, 3, 4, 5] := by
  have h := stream_sequences_consecutive 7 (fun _ => none) (fun _ => none) (fun _ => none)
    [("a", "x"), ("b", "y")] { id := "i", data := "D" } (by norm_num)
    (fun j _ => rfl) (fun i _ => rfl) (fun i _ => rfl)
  refine ⟨?_, h.2.2.2.2.1⟩
  have h2 := h.2.1
  simpa [List.range_succ] using h2

/-- C2: after any sequence of join/leave operations from the empty registry,
an audience entry exists iff its member set is non-empty; joining an
audience with no prior entry creates it with exactly the joiner; the last
member leaving deletes the entry; and broadcasting to or snapshotting an
absent audience treats it as empty — a silent no-op with success count zero,
not an error. -/
theorem audience_entry_iff_nonempty (ops : List RegOp) (r : String) (c : Conn)
    (s : WSState) (m : Message) (wfail : Conn → Bool) :
    ((lookupRoom (applyOps emptyWS ops).rooms r).isSome ↔
      roomMembers (applyOps emptyWS ops) r ≠ []) ∧
    (lookupRoom s.rooms r = none → lookupRoom (addToRoom s c r).rooms r = some [c]) ∧
    (lookupRoom s.rooms r = some [c] →
      lookupRoom ((removeFromRoom s c r).1).rooms r = none) ∧
    (lookupRoom s.rooms r = none →
      broadcastToRoom s r m wfail = (s, [], 0) ∧ roomMembers s r = []) := by
  refine ⟨?_, ?_, ?_, ?_⟩
  · exact roomsInv_entry_iff _ (roomsInv_applyOps ops emptyWS roomsInv_empty) r
  · intro h
    unfold addToRoom
    simp only [h, Option.getD_none]
    rw [show insertConn [] c = [c] from rfl]
    exact lookupRoom_setRoom_self _ _ _
  · intro h
    unfold removeFromRoom
    have hc : c ∈ [c] := List.mem_singleton.mpr rfl
    have he : eraseConn [c] c = [] := by simp [eraseConn]
    simp only [h, hc, if_true, he, if_pos rfl]
    exact lookupRoom_delRoom_self _ _
  · intro h
    constructor
    · unfold broadcastToRoom
      simp [h]
    · unfold roomMembers
      simp [h]

theorem audience_entry_iff_nonempty_witness :
    lookupRoom (addToRoom emptyWS 1 "R").rooms "R" = some [1] ∧
    lookupRoom ((removeFromRoom (addToRoom emptyWS 1 "R") 1 "R").1).rooms "R" = none ∧
    broadcastToRoom emptyWS "R" (welcomeEchoMsg 0) (fun _ => false) = (emptyWS, [], 0) := by
  refine ⟨?_, ?_, ?_⟩
  · exact (audience_entry_iff_nonempty [] "R" 1 emptyWS (welcomeEchoMsg 0)
      (fun _ => false)).2.1 rfl
  · exact (audience_entry_iff_nonempty [] "R" 1 (addToRoom emptyWS 1 "R") (welcomeEchoMsg 0)
      (fun _ => false)).2.2.1 rfl
  · exact ((audience_entry_iff_nonempty [] "R" 1 emptyWS (welcomeEchoMsg 0)
      (fun _ => false)).2.2.2 rfl).1

/-- C8: audience isolation — a connection that is not a member of audience
`A` (and is not the chatting session itself) is never the target of any send
produced by a room broadcast in `A`, nor of any send produced by a whole
chat session scoped to `A` (welcome, join, chat, json_error and leave
envelopes included). -/
theorem room_isolation (s : WSState) (A : String) (me c : Conn) (now : Int)
    (wfail : Conn → Bool) (m : Message) (events : List ReadEvent)
    (hcme : c ≠ me) (hc : c ∉ roomMembers s A) :
    c ∉ sendTargets (broadcastToRoom s A m wfail).2.1 ∧
    c ∉ sendTargets (chatSession me A now wfail s events).2 := by
  have hc1 : c ∉ roomMembers (addToRoom s me A) A := by
    rw [roomMembers_addToRoom_self, mem_insertConn]
    rintro (h1 | h1)
    · exact hc h1
    · exact hcme h1
  constructor
  · rw [broadcastToRoom_eq]
    simp only [sendTargets_fanout]
    exact hc
  · by_cases hA : A = ""
    · simp [chatSession, hA, sendTargets]
    · have hR : sendTargets (removeFromRoom (addToRoom s me A) me A).2 = [] := rfl
      have hJ : sendTargets (broadcastToRoom (addToRoom s me A) A (joinMsg A now) wfail).2.1 =
          roomMembers (addToRoom s me A) A := by
        rw [broadcastToRoom_eq]
        exact sendTargets_fanout _ _ _
      have hV : sendTargets (broadcastToRoom (addToRoom s me A) A (leaveMsg A now) wfail).2.1 =
          roomMembers (addToRoom s me A) A := by
        rw [broadcastToRoom_eq]
        exact sendTargets_fanout _ _ _
      intro habs
      simp only [chatSession, if_neg hA, sendTargets, sendTargets_append, hR, hJ, hV,
        List.mem_cons, List.mem_append, List.append_nil, List.not_mem_nil, or_false] at habs
      rcases habs with h1 | h1 | h1 | h1
      · exact hcme h1
      · exact hc1 h1
      · rcases chatLoop_targets me A now wfail (addToRoom s me A) events c h1 with h2 | h2
        · exact hcme h2
        · exact hc1 h2
      · exact hc1 h1

theorem room_isolation_witness :
    (3 : Conn) ∉ sendTargets
      (chatSession 1 "A" 5 (fun _ => false)
        { clients := [], rooms := [("A", [2]), ("B", [3])] }
        [ReadEvent.text "m" (Except.ok { type := "msg", data := JsonVal.str "hi", timestamp := 4 })]).2 :=
  (room_isolation { clients := [], rooms := [("A", [2]), ("B", [3])] } "A" 1 3 5
    (fun _ => false) (welcomeEchoMsg 0)
    [ReadEvent.text "m" (Except.ok { type := "msg", data := JsonVal.str "hi", timestamp := 4 })]
    (by decide) (by intro h; simp [roomMembers, lookupRoom] at h)).2

/-- C9: closing an already-closed session is a no-op on the registry —
`removeClient` on a connection absent from the global set leaves the state
unchanged and closes nothing; `removeFromRoom` on a connection absent from
the audience leaves the registry state unchanged; and one chat session's
trace attempts at most one `leave` envelope towards any given connection
(the leave notice is never double-broadcast). -/
theorem closed_session_close_noop (s : WSState) (c me : Conn) (room : String)
    (now : Int) (wfail : Conn → Bool) (events : List ReadEvent)
    (h1 : c ∉ s.clients) (h2 : c ∉ roomMembers s room)
    (hnd : (roomMembers s room).Nodup) :
    removeClient s c = (s, []) ∧
    (removeFromRoom s c room).1 = s ∧
    countLeaveSends c (chatSession me room now wfail s events).2 ≤ 1 := by
  refine ⟨?_, ?_, ?_⟩
  · unfold removeClient
    simp [h1]
  · rw [removeFromRoom_absent s c room h2]
  · by_cases hroom : room = ""
    · simp [chatSession, hroom, countLeaveSends]
    · have hnd1 : (roomMembers (addToRoom s me room) room).Nodup := by
        rw [roomMembers_addToRoom_self]
        exact insertConn_nodup _ _ hnd
      have hR : countLeaveSends c (removeFromRoom (addToRoom s me room) me room).2 = 0 := rfl
      have hJ : countLeaveSends c
          (broadcastToRoom (addToRoom s me room) room (joinMsg room now) wfail).2.1 = 0 := by
        rw [broadcastToRoom_eq]
        rw [countLeaveSends_fanout]
        simp [joinMsg]
      have hV : countLeaveSends c
          (broadcastToRoom (addToRoom s me room) room (leaveMsg room now) wfail).2.1 ≤ 1 := by
        rw [broadcastToRoom_eq, countLeaveSends_fanout]
        simp only [leaveMsg, if_pos rfl]
        exact List.nodup_iff_count_le_one.mp hnd1 c
      have hL := chatLoop_countLeaveSends c me room now wfail (addToRoom s me room) events
      simp only [chatSession, if_neg hroom, countLeaveSends, countLeaveSends_append,
        hR, hJ, hL, welcomeChatMsg]
      simp only [Nat.zero_add, Nat.add_zero]
      have : (if me = c ∧ ("welcome" : String) = "leave" then 1 else 0) = 0 := by
        simp
      omega

theorem closed_session_close_noop_witness :
    removeClient { clients := [2], rooms := [("R", [2])] } 1 =
      ({ clients := [2], rooms := [("R", [2])] }, []) ∧
    (removeFromRoom { clients := [2], rooms := [("R", [2])] } 1 "R").1 =
      { clients := [2], rooms := [("R", [2])] } ∧
    countLeaveSends 1 (chatSession 3 "R" 5 (fun _ => false)
      { clients := [2], rooms := [("R", [2])] } []).2 ≤ 1 :=
  closed_session_close_noop { clients := [2], rooms := [("R", [2])] } 1 3 "R" 5
    (fun _ => false) [] (by simp) (by intro h; simp [roomMembers, lookupRoom] at h)
    (by simp [roomMembers, lookupRoom])

theorem getLast?_cons_append3_singleton {α : Type} (a x : α) (l1 l2 l3 : List α) :
    (a :: (l1 ++ (l2 ++ (l3 ++ [x])))).getLast? = some x := by
  rw [show a :: (l1 ++ (l2 ++ (l3 ++ [x]))) = (a :: (l1 ++ (l2 ++ l3))) ++ [x] by simp]
  rw [List.getLast?_append_cons]
  rfl

/-- C6 counterexample: with connection 2 already in `room1`, the chat
session of connection 1 that closes immediately still has a `leave` envelope
sent to connection 1 itself in its trace — the deferred `removeFromRoom`
runs only after the handler body broadcasts the leave notice, so the
departing connection is among the recipients, contradicting the claim. -/
theorem chat_departing_gets_own_leave :
    Effect.send 1 (leaveMsg "room1" 5) true ∈
      (chatSession 1 "room1" 5 (fun _ => false)
        { clients := [], rooms := [("room1", [2])] } []).2 := by
  have h : (chatSession 1 "room1" 5 (fun _ => false)
      { clients := [], rooms := [("room1", [2])] } []).2 =
    [Effect.send 1 (welcomeChatMsg "room1" 5) true,
     Effect.send 2 (joinMsg "room1" 5) true,
     Effect.send 1 (joinMsg "room1" 5) true,
     Effect.send 2 (leaveMsg "room1" 5) true,
     Effect.send 1 (leaveMsg "room1" 5) true,
     Effect.close 1] := rfl
  rw [h]
  exact List.mem_cons_of_mem _ (List.mem_cons_of_mem _ (List.mem_cons_of_mem _
    (List.mem_cons_of_mem _ (List.mem_cons_self _ _))))

/-- C6 (amended): when a chat session transitions to CLOSED, the `leave`
envelope is broadcast first, to the audience snapshot that still contains
the departing connection — which is therefore among the attempted
recipients of its own leave notice — and only afterwards is the connection
removed from its audience and its transport closed (the close is the last
effect of the session). -/
theorem chat_close_broadcasts_leave_before_removal (me : Conn) (room : String)
    (now : Int) (wfail : Conn → Bool) (s : WSState) (events : List ReadEvent)
    (hroom : room ≠ "") :
    Effect.send me (leaveMsg room now) (!(wfail me)) ∈
      (chatSession me room now wfail s events).2 ∧
    me ∉ roomMembers (chatSession me room now wfail s events).1 room ∧
    (chatSession me room now wfail s events).2.getLast? = some (Effect.close me) := by
  have hmem : me ∈ roomMembers (addToRoom s me room) room := by
    rw [roomMembers_addToRoom_self, mem_insertConn]
    exact Or.inr rfl
  have hV : Effect.send me (leaveMsg room now) (!(wfail me)) ∈
      (broadcastToRoom (addToRoom s me room) room (leaveMsg room now) wfail).2.1 := by
    rw [broadcastToRoom_eq]
    exact fanout_mem _ wfail _ me hmem
  refine ⟨?_, ?_, ?_⟩
  · simp only [chatSession, if_neg hroom]
    refine List.mem_cons_of_mem _ (List.mem_append_right _ (List.mem_append_right _
      (List.mem_append_left _ hV)))
  · simp only [chatSession, if_neg hroom]
    exact roomMembers_removeFromRoom_self (addToRoom s me room) me room
  · simp only [chatSession, if_neg hroom]
    rw [show (removeFromRoom (addToRoom s me room) me room).2 = [Effect.close me] from rfl]
    exact getLast?_cons_append3_singleton _ _ _ _ _

theorem chat_close_broadcasts_leave_before_removal_witness :
    Effect.send 1 (leaveMsg "room1" 5) true ∈
      (chatSession 1 "room1" 5 (fun _ => false)
        { clients := [], rooms := [("room1", [2])] } []).2 ∧
    (1 : Conn) ∉ roomMembers (chatSession 1 "room1" 5 (fun _ => false)
        { clients := [], rooms := [("room1", [2])] } []).1 "room1" :=
  have h := chat_close_broadcasts_leave_before_removal 1 "room1" 5 (fun _ => false)
    { clients := [], rooms := [("room1", [2])] } [] (by simp)
  ⟨h.1, h.2.1⟩

/-- C7 counterexample: on the broadcast endpoint with clients 1 and 2, a
binary frame from connection 1 is not confined to the sender — its
"Binary messages not supported" payload is re-tagged `broadcast` and fanned
out, so connection 2 receives it, contradicting the claim. -/
theorem binary_frame_fanned_out :
    Effect.send 2 { type := "broadcast", data := JsonVal.str "Binary messages not supported", timestamp := 5 } true ∈
      broadcastLoop 1 5 (fun _ => false) { clients := [1, 2], rooms := [] }
        [ReadEvent.binary] := by
  have h : broadcastLoop 1 5 (fun _ => false) { clients := [1, 2], rooms := [] }
      [ReadEvent.binary] =
    [Effect.send 1 { type := "broadcast", data := JsonVal.str "Binary messages not supported", timestamp := 5 } true,
     Effect.send 2 { type := "broadcast", data := JsonVal.str "Binary messages not supported", timestamp := 5 } true] := rfl
  rw [h]
  exact List.mem_cons_of_mem _ (List.mem_cons_self _ _)

/-- C7 (amended): a binary frame yields a distinguished error envelope
(type `error`, not `json_error`) and never fails the connection, but only
`json_error` envelopes are confined to the sender: the session loops treat
the binary-frame envelope like a normal message — the echo loop replies to
the sender with an `echo` envelope carrying its payload, while the
broadcast and chat loops re-tag the payload (`broadcast` / `chat`) and fan
it out to the full audience snapshot, each loop then continuing. -/
theorem binary_frame_treated_as_normal (me : Conn) (room : String) (now : Int)
    (wfail : Conn → Bool) (s : WSState) (rest : List ReadEvent)
    (hw : wfail me = false) :
    safeReadJSON now ReadEvent.binary = Except.ok (binaryMsg now) ∧
    echoLoop me now wfail (ReadEvent.binary :: rest) =
      Effect.send me { type := "echo", data := (binaryMsg now).data, timestamp := now } true ::
        echoLoop me now wfail rest ∧
    broadcastLoop me now wfail s (ReadEvent.binary :: rest) =
      fanout { type := "broadcast", data := (binaryMsg now).data, timestamp := now } wfail
        s.clients ++ broadcastLoop me now wfail s rest ∧
    chatLoop me room now wfail s (ReadEvent.binary :: rest) =
      fanout { type := "chat", data := (binaryMsg now).data, timestamp := now, room := room }
        wfail (roomMembers s room) ++ chatLoop me room now wfail s rest := by
  refine ⟨rfl, ?_, ?_, ?_⟩
  · simp [echoLoop, safeReadJSON, binaryMsg, hw]
  · simp only [broadcastLoop, safeReadJSON]
    rw [if_neg (by simp [binaryMsg]), broadcastToAll_eq, fanout_eq_map]
  · simp only [chatLoop, safeReadJSON]
    rw [if_neg (by simp [binaryMsg]), broadcastToRoom_eq, fanout_eq_map]

theorem binary_frame_treated_as_normal_witness :
    broadcastLoop 1 5 (fun _ => false) { clients := [1, 2], rooms := [] }
        [ReadEvent.binary] =
      fanout { type := "broadcast", data := (binaryMsg 5).data, timestamp := 5 }
        (fun _ => false) [1, 2] := by
  have h := (binary_frame_treated_as_normal 1 "r" 5 (fun _ => false)
    { clients := [1, 2], rooms := [] } [] rfl).2.2.1
  simpa [broadcastLoop] using h

end MockServer
